import Mathlib

/-!
# linebot: script classifier, translation request, response validation, handler

A shallow embedding of `src/linebot/main.go`.

* Go strings are Lean `String`s; `for _, s := range text` yields the code
  points of the string in order, modelled by `runes`.
* A `rune` (Go's `int32` code point) is a natural number: the loop only
  produces values in `0 .. 0x10FFFF`.
* The events of a request are a slice of pointers; an entry is `some` event
  or `none`, the nil pointer, at which the loop of `Handler` panics.
* The functions of Go's standard library that the program calls
  (`unicode.In`, `http.StatusText`, `url.Values.Add`, `fmt`) are modelled
  next to the code that calls them.
-/

namespace Linebot

/-! ## Package `unicode` -/

/-- Go `unicode.Range16`: the code points `Lo, Lo+Stride, ...` up to `Hi`. -/
structure Range16 where
  Lo : Nat
  Hi : Nat
  Stride : Nat
  deriving DecidableEq, Repr

/-- Go `unicode.Range32`. -/
structure Range32 where
  Lo : Nat
  Hi : Nat
  Stride : Nat
  deriving DecidableEq, Repr

/-- Go `unicode.RangeTable` (the `LatinOffset` field is not read by `Is`). -/
structure RangeTable where
  R16 : List Range16
  R32 : List Range32
  deriving DecidableEq, Repr

/-- Go `unicode.linearMax`: tables up to this length are scanned linearly. -/
def linearMax : Nat := 18

/-- Go `unicode.MaxLatin1`. -/
def MaxLatin1 : Nat := 0xFF

/-- The linear scan of `unicode.is16`. -/
def is16Linear : List Range16 → Nat → Bool
  | [], _ => false
  | range_ :: rest, r =>
    if r < range_.Lo then false
    else if r ≤ range_.Hi then
      range_.Stride == 1 || (r - range_.Lo) % range_.Stride == 0
    else is16Linear rest r

/-- The binary search of `unicode.is16`; each round halves `hi - lo`, so
`fuel = len(ranges)` rounds are enough. -/
def is16Search (ranges : List Range16) (r : Nat) : Nat → Nat → Nat → Bool
  | 0, _, _ => false
  | fuel + 1, lo, hi =>
    if lo < hi then
      let m := (lo + hi) / 2
      match ranges.get? m with
      | none => false
      | some range_ =>
        if range_.Lo ≤ r ∧ r ≤ range_.Hi then
          range_.Stride == 1 || (r - range_.Lo) % range_.Stride == 0
        else if r < range_.Lo then is16Search ranges r fuel lo m
        else is16Search ranges r fuel (m + 1) hi
    else false

/-- Go `unicode.is16`. -/
def is16 (ranges : List Range16) (r : Nat) : Bool :=
  if ranges.length ≤ linearMax ∨ r ≤ MaxLatin1 then is16Linear ranges r
  else is16Search ranges r (ranges.length + 1) 0 ranges.length

/-- The linear scan of `unicode.is32`. -/
def is32Linear : List Range32 → Nat → Bool
  | [], _ => false
  | range_ :: rest, r =>
    if r < range_.Lo then false
    else if r ≤ range_.Hi then
      range_.Stride == 1 || (r - range_.Lo) % range_.Stride == 0
    else is32Linear rest r

/-- The binary search of `unicode.is32`. -/
def is32Search (ranges : List Range32) (r : Nat) : Nat → Nat → Nat → Bool
  | 0, _, _ => false
  | fuel + 1, lo, hi =>
    if lo < hi then
      let m := (lo + hi) / 2
      match ranges.get? m with
      | none => false
      | some range_ =>
        if range_.Lo ≤ r ∧ r ≤ range_.Hi then
          range_.Stride == 1 || (r - range_.Lo) % range_.Stride == 0
        else if r < range_.Lo then is32Search ranges r fuel lo m
        else is32Search ranges r fuel (m + 1) hi
    else false

/-- Go `unicode.is32`. -/
def is32 (ranges : List Range32) (r : Nat) : Bool :=
  if ranges.length ≤ linearMax then is32Linear ranges r
  else is32Search ranges r (ranges.length + 1) 0 ranges.length

/-- Go `unicode.Is`: the 16-bit ranges are consulted when `r` is not above
the last of them, the 32-bit ranges otherwise. -/
def Is (rangeTab : RangeTable) (r : Nat) : Bool :=
  match rangeTab.R16.getLast? with
  | some last16 =>
    if r ≤ last16.Hi then is16 rangeTab.R16 (r % 2 ^ 16)
    else
      match rangeTab.R32.head? with
      | some first32 => if first32.Lo ≤ r then is32 rangeTab.R32 r else false
      | none => false
  | none =>
    match rangeTab.R32.head? with
    | some first32 => if first32.Lo ≤ r then is32 rangeTab.R32 r else false
    | none => false

/-- Go `unicode.In`: whether `r` is a member of one of the tables. -/
def In (r : Nat) (ranges : List RangeTable) : Bool :=
  ranges.any (fun inside => Is inside r)

/-- Go `unicode.Hiragana`, the script table of Unicode 15.0.0. -/
def Hiragana : RangeTable where
  R16 := [⟨0x3041, 0x3096, 1⟩, ⟨0x309d, 0x309f, 1⟩]
  R32 := [⟨0x1b001, 0x1b11f, 1⟩, ⟨0x1b132, 0x1b150, 30⟩, ⟨0x1b151, 0x1b152, 1⟩,
          ⟨0x1f200, 0x1f200, 1⟩]

/-- Go `unicode.Katakana`, the script table of Unicode 15.0.0. -/
def Katakana : RangeTable where
  R16 := [⟨0x30a1, 0x30fa, 1⟩, ⟨0x30fd, 0x30ff, 1⟩, ⟨0x31f0, 0x31ff, 1⟩,
          ⟨0x32d0, 0x32fe, 1⟩, ⟨0x3300, 0x3357, 1⟩, ⟨0xff66, 0xff6f, 1⟩,
          ⟨0xff71, 0xff9d, 1⟩]
  R32 := [⟨0x1aff0, 0x1aff3, 1⟩, ⟨0x1aff5, 0x1affb, 1⟩, ⟨0x1affd, 0x1affe, 1⟩,
          ⟨0x1b000, 0x1b120, 288⟩, ⟨0x1b121, 0x1b122, 1⟩, ⟨0x1b155, 0x1b164, 15⟩,
          ⟨0x1b165, 0x1b167, 1⟩]

/-- Membership of a code point in a range table, read off the table's
entries: some entry has `Lo ≤ r ≤ Hi` with `r` on its stride. -/
def RangeTable.Contains (t : RangeTable) (r : Nat) : Prop :=
  (∃ e ∈ t.R16, e.Lo ≤ r ∧ r ≤ e.Hi ∧ (r - e.Lo) % e.Stride = 0) ∨
  (∃ e ∈ t.R32, e.Lo ≤ r ∧ r ≤ e.Hi ∧ (r - e.Lo) % e.Stride = 0)

/-! ## The classifier (`main.go`, lines 165-183) -/

/-- The runes `for _, s := range text` yields, in order. -/
def runes (text : String) : List Nat := text.data.map Char.toNat

/-- Source `isHiragana`. -/
def isHiragana (r : Nat) : Bool := In r [Hiragana]

/-- Source `isKatakana`. -/
def isKatakana (r : Nat) : Bool := In r [Katakana]

/-- The loop of `distinctLanguage` over the remaining runes. -/
def distinctLanguageLoop : List Nat → Bool
  | [] => false
  | s :: rest =>
    if isHiragana s then true
    else if isKatakana s then true
    else distinctLanguageLoop rest

/-- Source `distinctLanguage`. -/
def distinctLanguage (text : String) : Bool := distinctLanguageLoop (runes text)

/-! ### Code point classes named by the specification -/

/-- The Hiragana block of Unicode, `U+3040..U+309F`. -/
def inHiraganaBlock (s : Nat) : Prop := 0x3040 ≤ s ∧ s ≤ 0x309F

/-- The Katakana block of Unicode, `U+30A0..U+30FF`. -/
def inKatakanaBlock (s : Nat) : Prop := 0x30A0 ≤ s ∧ s ≤ 0x30FF

/-- The code points of the two blocks that are in neither script table:
unassigned `U+3040`, `U+3097`, `U+3098`, the combining and spacing voicing
marks `U+3099..U+309C`, the double hyphen `U+30A0`, the middle dot `U+30FB`
and the prolonged sound mark `U+30FC`. -/
def blockOnly (s : Nat) : Prop :=
  s = 0x3040 ∨ (0x3097 ≤ s ∧ s ≤ 0x309C) ∨ s = 0x30A0 ∨ s = 0x30FB ∨ s = 0x30FC

/-- The code points of the two script tables that lie outside both blocks. -/
def scriptOnly (s : Nat) : Prop :=
  (0x31F0 ≤ s ∧ s ≤ 0x31FF) ∨ (0x32D0 ≤ s ∧ s ≤ 0x32FE) ∨ (0x3300 ≤ s ∧ s ≤ 0x3357) ∨
  (0xFF66 ≤ s ∧ s ≤ 0xFF6F) ∨ (0xFF71 ≤ s ∧ s ≤ 0xFF9D) ∨
  (0x1AFF0 ≤ s ∧ s ≤ 0x1AFF3) ∨ (0x1AFF5 ≤ s ∧ s ≤ 0x1AFFB) ∨
  (0x1AFFD ≤ s ∧ s ≤ 0x1AFFE) ∨ (0x1B000 ≤ s ∧ s ≤ 0x1B122) ∨ s = 0x1B132 ∨
  (0x1B150 ≤ s ∧ s ≤ 0x1B152) ∨ s = 0x1B155 ∨ (0x1B164 ≤ s ∧ s ≤ 0x1B167) ∨
  s = 0x1F200

/-- Whether `s` lies in one of the inclusive ranges `(lo, hi)`. -/
def inRanges (ranges : List (Nat × Nat)) (s : Nat) : Bool :=
  ranges.any (fun r => decide (r.1 ≤ s) && decide (s ≤ r.2))

/-- The letters of the Latin script: the code points of Unicode 15.0.0 with
script Latin and a general category of letters (Lu, Ll, Lt, Lm, Lo). -/
def LatinLetterRanges : List (Nat × Nat) :=
  [(0x41, 0x5A), (0x61, 0x7A), (0xAA, 0xAA), (0xBA, 0xBA), (0xC0, 0xD6), (0xD8, 0xF6),
   (0xF8, 0x2B8), (0x2E0, 0x2E4), (0x1D00, 0x1D25), (0x1D2C, 0x1D5C), (0x1D62, 0x1D65),
   (0x1D6B, 0x1D77), (0x1D79, 0x1DBE), (0x1E00, 0x1EFF), (0x2071, 0x2071), (0x207F, 0x207F),
   (0x2090, 0x209C), (0x212A, 0x212B), (0x2132, 0x2132), (0x214E, 0x214E), (0x2183, 0x2184),
   (0x2C60, 0x2C7F), (0xA722, 0xA787), (0xA78B, 0xA7CA), (0xA7D0, 0xA7D1), (0xA7D3, 0xA7D3),
   (0xA7D5, 0xA7D9), (0xA7F2, 0xA7FF), (0xAB30, 0xAB5A), (0xAB5C, 0xAB64), (0xAB66, 0xAB69),
   (0xFB00, 0xFB06), (0xFF21, 0xFF3A), (0xFF41, 0xFF5A), (0x10780, 0x10785),
   (0x10787, 0x107B0), (0x107B2, 0x107BA), (0x1DF00, 0x1DF1E), (0x1DF25, 0x1DF2A)]

/-- The decimal digits: general category Nd of Unicode 15.0.0. -/
def DecimalDigitRanges : List (Nat × Nat) :=
  [(0x30, 0x39), (0x660, 0x669), (0x6F0, 0x6F9), (0x7C0, 0x7C9), (0x966, 0x96F),
   (0x9E6, 0x9EF), (0xA66, 0xA6F), (0xAE6, 0xAEF), (0xB66, 0xB6F), (0xBE6, 0xBEF),
   (0xC66, 0xC6F), (0xCE6, 0xCEF), (0xD66, 0xD6F), (0xDE6, 0xDEF), (0xE50, 0xE59),
   (0xED0, 0xED9), (0xF20, 0xF29), (0x1040, 0x1049), (0x1090, 0x1099), (0x17E0, 0x17E9),
   (0x1810, 0x1819), (0x1946, 0x194F), (0x19D0, 0x19D9), (0x1A80, 0x1A89), (0x1A90, 0x1A99),
   (0x1B50, 0x1B59), (0x1BB0, 0x1BB9), (0x1C40, 0x1C49), (0x1C50, 0x1C59), (0xA620, 0xA629),
   (0xA8D0, 0xA8D9), (0xA900, 0xA909), (0xA9D0, 0xA9D9), (0xA9F0, 0xA9F9), (0xAA50, 0xAA59),
   (0xABF0, 0xABF9), (0xFF10, 0xFF19), (0x104A0, 0x104A9), (0x10D30, 0x10D39),
   (0x11066, 0x1106F), (0x110F0, 0x110F9), (0x11136, 0x1113F), (0x111D0, 0x111D9),
   (0x112F0, 0x112F9), (0x11450, 0x11459), (0x114D0, 0x114D9), (0x11650, 0x11659),
   (0x116C0, 0x116C9), (0x11730, 0x11739), (0x118E0, 0x118E9), (0x11950, 0x11959),
   (0x11C50, 0x11C59), (0x11D50, 0x11D59), (0x11DA0, 0x11DA9), (0x11F50, 0x11F59),
   (0x16A60, 0x16A69), (0x16AC0, 0x16AC9), (0x16B50, 0x16B59), (0x1D7CE, 0x1D7FF),
   (0x1E140, 0x1E149), (0x1E2F0, 0x1E2F9), (0x1E4F0, 0x1E4F9), (0x1E950, 0x1E959),
   (0x1FBF0, 0x1FBF9)]

/-- The punctuation: general categories Pc, Pd, Ps, Pe, Pi, Pf and Po of
Unicode 15.0.0. -/
def PunctuationRanges : List (Nat × Nat) :=
  [(0x21, 0x23), (0x25, 0x2A), (0x2C, 0x2F), (0x3A, 0x3B), (0x3F, 0x40), (0x5B, 0x5D),
   (0x5F, 0x5F), (0x7B, 0x7B), (0x7D, 0x7D), (0xA1, 0xA1), (0xA7, 0xA7), (0xAB, 0xAB),
   (0xB6, 0xB7), (0xBB, 0xBB), (0xBF, 0xBF), (0x37E, 0x37E), (0x387, 0x387), (0x55A, 0x55F),
   (0x589, 0x58A), (0x5BE, 0x5BE), (0x5C0, 0x5C0), (0x5C3, 0x5C3), (0x5C6, 0x5C6),
   (0x5F3, 0x5F4), (0x609, 0x60A), (0x60C, 0x60D), (0x61B, 0x61B), (0x61D, 0x61F),
   (0x66A, 0x66D), (0x6D4, 0x6D4), (0x700, 0x70D), (0x7F7, 0x7F9), (0x830, 0x83E),
   (0x85E, 0x85E), (0x964, 0x965), (0x970, 0x970), (0x9FD, 0x9FD), (0xA76, 0xA76),
   (0xAF0, 0xAF0), (0xC77, 0xC77), (0xC84, 0xC84), (0xDF4, 0xDF4), (0xE4F, 0xE4F),
   (0xE5A, 0xE5B), (0xF04, 0xF12), (0xF14, 0xF14), (0xF3A, 0xF3D), (0xF85, 0xF85),
   (0xFD0, 0xFD4), (0xFD9, 0xFDA), (0x104A, 0x104F), (0x10FB, 0x10FB), (0x1360, 0x1368),
   (0x1400, 0x1400), (0x166E, 0x166E), (0x169B, 0x169C), (0x16EB, 0x16ED), (0x1735, 0x1736),
   (0x17D4, 0x17D6), (0x17D8, 0x17DA), (0x1800, 0x180A), (0x1944, 0x1945), (0x1A1E, 0x1A1F),
   (0x1AA0, 0x1AA6), (0x1AA8, 0x1AAD), (0x1B5A, 0x1B60), (0x1B7D, 0x1B7E), (0x1BFC, 0x1BFF),
   (0x1C3B, 0x1C3F), (0x1C7E, 0x1C7F), (0x1CC0, 0x1CC7), (0x1CD3, 0x1CD3), (0x2010, 0x2027),
   (0x2030, 0x2043), (0x2045, 0x2051), (0x2053, 0x205E), (0x207D, 0x207E), (0x208D, 0x208E),
   (0x2308, 0x230B), (0x2329, 0x232A), (0x2768, 0x2775), (0x27C5, 0x27C6), (0x27E6, 0x27EF),
   (0x2983, 0x2998), (0x29D8, 0x29DB), (0x29FC, 0x29FD), (0x2CF9, 0x2CFC), (0x2CFE, 0x2CFF),
   (0x2D70, 0x2D70), (0x2E00, 0x2E2E), (0x2E30, 0x2E4F), (0x2E52, 0x2E5D), (0x3001, 0x3003),
   (0x3008, 0x3011), (0x3014, 0x301F), (0x3030, 0x3030), (0x303D, 0x303D), (0x30A0, 0x30A0),
   (0x30FB, 0x30FB), (0xA4FE, 0xA4FF), (0xA60D, 0xA60F), (0xA673, 0xA673), (0xA67E, 0xA67E),
   (0xA6F2, 0xA6F7), (0xA874, 0xA877), (0xA8CE, 0xA8CF), (0xA8F8, 0xA8FA), (0xA8FC, 0xA8FC),
   (0xA92E, 0xA92F), (0xA95F, 0xA95F), (0xA9C1, 0xA9CD), (0xA9DE, 0xA9DF), (0xAA5C, 0xAA5F),
   (0xAADE, 0xAADF), (0xAAF0, 0xAAF1), (0xABEB, 0xABEB), (0xFD3E, 0xFD3F), (0xFE10, 0xFE19),
   (0xFE30, 0xFE52), (0xFE54, 0xFE61), (0xFE63, 0xFE63), (0xFE68, 0xFE68), (0xFE6A, 0xFE6B),
   (0xFF01, 0xFF03), (0xFF05, 0xFF0A), (0xFF0C, 0xFF0F), (0xFF1A, 0xFF1B), (0xFF1F, 0xFF20),
   (0xFF3B, 0xFF3D), (0xFF3F, 0xFF3F), (0xFF5B, 0xFF5B), (0xFF5D, 0xFF5D), (0xFF5F, 0xFF65),
   (0x10100, 0x10102), (0x1039F, 0x1039F), (0x103D0, 0x103D0), (0x1056F, 0x1056F),
   (0x10857, 0x10857), (0x1091F, 0x1091F), (0x1093F, 0x1093F), (0x10A50, 0x10A58),
   (0x10A7F, 0x10A7F), (0x10AF0, 0x10AF6), (0x10B39, 0x10B3F), (0x10B99, 0x10B9C),
   (0x10EAD, 0x10EAD), (0x10F55, 0x10F59), (0x10F86, 0x10F89), (0x11047, 0x1104D),
   (0x110BB, 0x110BC), (0x110BE, 0x110C1), (0x11140, 0x11143), (0x11174, 0x11175),
   (0x111C5, 0x111C8), (0x111CD, 0x111CD), (0x111DB, 0x111DB), (0x111DD, 0x111DF),
   (0x11238, 0x1123D), (0x112A9, 0x112A9), (0x1144B, 0x1144F), (0x1145A, 0x1145B),
   (0x1145D, 0x1145D), (0x114C6, 0x114C6), (0x115C1, 0x115D7), (0x11641, 0x11643),
   (0x11660, 0x1166C), (0x116B9, 0x116B9), (0x1173C, 0x1173E), (0x1183B, 0x1183B),
   (0x11944, 0x11946), (0x119E2, 0x119E2), (0x11A3F, 0x11A46), (0x11A9A, 0x11A9C),
   (0x11A9E, 0x11AA2), (0x11B00, 0x11B09), (0x11C41, 0x11C45), (0x11C70, 0x11C71),
   (0x11EF7, 0x11EF8), (0x11F43, 0x11F4F), (0x11FFF, 0x11FFF), (0x12470, 0x12474),
   (0x12FF1, 0x12FF2), (0x16A6E, 0x16A6F), (0x16AF5, 0x16AF5), (0x16B37, 0x16B3B),
   (0x16B44, 0x16B44), (0x16E97, 0x16E9A), (0x16FE2, 0x16FE2), (0x1BC9F, 0x1BC9F),
   (0x1DA87, 0x1DA8B), (0x1E95E, 0x1E95F)]

/-- The CJK unified ideographs: the property Unified_Ideograph of Unicode 15.0.0. -/
def CJKUnifiedIdeographRanges : List (Nat × Nat) :=
  [(0x3400, 0x4DBF), (0x4E00, 0x9FFF), (0xFA0E, 0xFA0F), (0xFA11, 0xFA11), (0xFA13, 0xFA14),
   (0xFA1F, 0xFA1F), (0xFA21, 0xFA21), (0xFA23, 0xFA24), (0xFA27, 0xFA29), (0x20000, 0x2A6DF),
   (0x2A700, 0x2B739), (0x2B740, 0x2B81D), (0x2B820, 0x2CEA1), (0x2CEB0, 0x2EBE0),
   (0x30000, 0x3134A), (0x31350, 0x323AF)]

/-- A Latin letter. -/
def isLatinLetter (s : Nat) : Prop := inRanges LatinLetterRanges s = true

/-- A decimal digit. -/
def isDecimalDigit (s : Nat) : Prop := inRanges DecimalDigitRanges s = true

/-- A punctuation mark. -/
def isPunctuation (s : Nat) : Prop := inRanges PunctuationRanges s = true

/-- A CJK unified ideograph (kanji). -/
def isCJKUnifiedIdeograph (s : Nat) : Prop := inRanges CJKUnifiedIdeographRanges s = true

/-- Whether every range of `ranges` lies apart from every entry of the table. -/
def rangesAvoid (ranges : List (Nat × Nat)) (t : RangeTable) : Bool :=
  ranges.all (fun r =>
    t.R16.all (fun e => decide (r.2 < e.Lo) || decide (e.Hi < r.1)) &&
    t.R32.all (fun e => decide (r.2 < e.Lo) || decide (e.Hi < r.1)))

instance (s : Nat) : Decidable (inHiraganaBlock s) := by unfold inHiraganaBlock; infer_instance
instance (s : Nat) : Decidable (inKatakanaBlock s) := by unfold inKatakanaBlock; infer_instance
instance (s : Nat) : Decidable (blockOnly s) := by unfold blockOnly; infer_instance
instance (s : Nat) : Decidable (scriptOnly s) := by unfold scriptOnly; infer_instance
instance (s : Nat) : Decidable (isLatinLetter s) := by unfold isLatinLetter; infer_instance
instance (s : Nat) : Decidable (isDecimalDigit s) := by unfold isDecimalDigit; infer_instance
instance (s : Nat) : Decidable (isPunctuation s) := by unfold isPunctuation; infer_instance
instance (s : Nat) : Decidable (isCJKUnifiedIdeograph s) := by
  unfold isCJKUnifiedIdeograph; infer_instance

/-! ## Package `net/url` -/

/-- Go `url.Values`, a `map[string][]string`, as the list of its entries. -/
structure Values where
  entries : List (String × List String)
  deriving DecidableEq, Repr

/-- The empty map `url.Values{}`. -/
def Values.empty : Values := ⟨[]⟩

/-- The map index `v[key]`: the values stored under `key`, none when absent. -/
def Values.index (v : Values) (key : String) : List String :=
  match v.entries.find? (fun kv => kv.1 == key) with
  | some kv => kv.2
  | none => []

/-- Appending to the entry of `key` in the list of entries. -/
def addEntry (key value : String) : List (String × List String) → List (String × List String)
  | [] => [(key, [value])]
  | kv :: rest =>
    if kv.1 == key then (kv.1, kv.2 ++ [value]) :: rest else kv :: addEntry key value rest

/-- Go `url.Values.Add`: `v[key] = append(v[key], value)`. -/
def Values.Add (v : Values) (key value : String) : Values := ⟨addEntry key value v.entries⟩

/-! ## Package `net/http` -/

/-- The body of a response as a reader: the bytes not read yet, and the error
the stream ends with (`none` for a clean end of file). -/
structure Body where
  unread : String
  failure : Option String
  deriving DecidableEq, Repr

/-- The fields of Go `http.Response` that the program reads. -/
structure Response where
  StatusCode : Int
  Body : Body
  deriving DecidableEq, Repr

/-- Go `http.StatusText` (Go 1.21): the text of a status code, empty when unknown. -/
def StatusText (code : Int) : String :=
  if code = 100 then "Continue"
  else if code = 101 then "Switching Protocols"
  else if code = 102 then "Processing"
  else if code = 103 then "Early Hints"
  else if code = 200 then "OK"
  else if code = 201 then "Created"
  else if code = 202 then "Accepted"
  else if code = 203 then "Non-Authoritative Information"
  else if code = 204 then "No Content"
  else if code = 205 then "Reset Content"
  else if code = 206 then "Partial Content"
  else if code = 207 then "Multi-Status"
  else if code = 208 then "Already Reported"
  else if code = 226 then "IM Used"
  else if code = 300 then "Multiple Choices"
  else if code = 301 then "Moved Permanently"
  else if code = 302 then "Found"
  else if code = 303 then "See Other"
  else if code = 304 then "Not Modified"
  else if code = 305 then "Use Proxy"
  else if code = 307 then "Temporary Redirect"
  else if code = 308 then "Permanent Redirect"
  else if code = 400 then "Bad Request"
  else if code = 401 then "Unauthorized"
  else if code = 402 then "Payment Required"
  else if code = 403 then "Forbidden"
  else if code = 404 then "Not Found"
  else if code = 405 then "Method Not Allowed"
  else if code = 406 then "Not Acceptable"
  else if code = 407 then "Proxy Authentication Required"
  else if code = 408 then "Request Timeout"
  else if code = 409 then "Conflict"
  else if code = 410 then "Gone"
  else if code = 411 then "Length Required"
  else if code = 412 then "Precondition Failed"
  else if code = 413 then "Request Entity Too Large"
  else if code = 414 then "Request URI Too Long"
  else if code = 415 then "Unsupported Media Type"
  else if code = 416 then "Requested Range Not Satisfiable"
  else if code = 417 then "Expectation Failed"
  else if code = 418 then "I\x27m a teapot"
  else if code = 421 then "Misdirected Request"
  else if code = 422 then "Unprocessable Entity"
  else if code = 423 then "Locked"
  else if code = 424 then "Failed Dependency"
  else if code = 425 then "Too Early"
  else if code = 426 then "Upgrade Required"
  else if code = 428 then "Precondition Required"
  else if code = 429 then "Too Many Requests"
  else if code = 431 then "Request Header Fields Too Large"
  else if code = 451 then "Unavailable For Legal Reasons"
  else if code = 500 then "Internal Server Error"
  else if code = 501 then "Not Implemented"
  else if code = 502 then "Bad Gateway"
  else if code = 503 then "Service Unavailable"
  else if code = 504 then "Gateway Timeout"
  else if code = 505 then "HTTP Version Not Supported"
  else if code = 506 then "Variant Also Negotiates"
  else if code = 507 then "Insufficient Storage"
  else if code = 508 then "Loop Detected"
  else if code = 510 then "Not Extended"
  else if code = 511 then "Network Authentication Required"
  else ""

/-! ## Packages `encoding/json` and `fmt` -/

/-- A value that `encoding/json` stores in an `interface{}`. -/
inductive Value where
  /-- The nil interface: JSON `null`, or the result of indexing a map at an absent key. -/
  | nil
  /-- A Go `string`, from a JSON string. -/
  | str (s : String)
  /-- A `bool`, `float64`, slice or map; `shown` is the text the verb `%s` prints for it. -/
  | other (shown : String)
  deriving DecidableEq, Repr

/-- A Go `map[string]interface{}` as the list of its entries; the nil map has none. -/
abbrev JSONMap := List (String × Value)

/-- The map index `data[key]`: the nil interface when the key is absent. -/
def mapIndex (data : JSONMap) (key : String) : Value :=
  match data.find? (fun kv => kv.1 == key) with
  | some kv => kv.2
  | none => Value.nil

/-- The verb `%s` of package `fmt` applied to an `interface{}` operand. -/
def fmtS : Value → String
  | Value.nil => "%!s(<nil>)"
  | Value.str s => s
  | Value.other shown => shown

/-- Go `(*json.Decoder).Decode` into a `map[string]interface{}`, as the program
sees it: from the body, the error or the decoded map, and the body left to read. -/
abbrev MapDecoder := Body → Except String JSONMap × Body

/-! ## Response validation (`main.go`, lines 118-147) -/

/-- Source `KnownErrors`, the map from status code to explanation. -/
def KnownErrors (code : Int) : Option String :=
  if code = 400 then some "Bad request. Please check error message and your parameters."
  else if code = 403 then
    some "Authorization failed. Please supply a valid auth_key parameter."
  else if code = 404 then some "The requested resource could not be found."
  else if code = 413 then some "The request size exceeds the limit."
  else if code = 414 then
    some ("The request URL is too long. You can avoid this error by using a POST request " ++
      "instead of a GET request, and sending the parameters in the HTTP body.")
  else if code = 429 then some "Too many requests. Please wait and resend your request."
  else if code = 456 then some "Quota exceeded. The character limit has been reached."
  else if code = 503 then some "Resource currently unavailable. Try again later."
  else if code = 529 then some "Too many requests. Please wait and resend your request."
  else none

/-- The value of `baseErrorText` when `ValidateResponse` starts decoding the body. -/
def baseErrorText (code : Int) : String :=
  let base := "Invalid response [" ++ toString code ++ " " ++ StatusText code ++ "]"
  match KnownErrors code with
  | some t => base ++ (" " ++ t)
  | none => base

/-- Source `ValidateResponse`: the error (`none` for `nil`) and the response
with its body as the call leaves it. -/
def ValidateResponse (decode : MapDecoder) (resp : Response) : Option String × Response :=
  if resp.StatusCode < 200 ∨ resp.StatusCode ≥ 300 then
    match decode resp.Body with
    | (Except.error _, rest) =>
      (some (baseErrorText resp.StatusCode), { resp with Body := rest })
    | (Except.ok data, rest) =>
      (some (baseErrorText resp.StatusCode ++ ", " ++ fmtS (mapIndex data "message")),
        { resp with Body := rest })
  else (none, resp)

/-! ## The webhook (`main.go`, lines 19-116) -/

/-- The dynamic type of `linebot.Event.Message`. -/
inductive Message where
  /-- No message: the nil interface. -/
  | absent
  /-- A `*linebot.TextMessage` with its `Text`. -/
  | text (Text : String)
  /-- A message of another type (image, video, audio, file, location, sticker), by name. -/
  | other (kind : String)
  deriving DecidableEq, Repr

/-- The fields of `linebot.Event` that the program reads; `Type_` is the
field `Type`, a reserved word here. -/
structure Event where
  Type_ : String
  ReplyToken : String
  Message : Message
  deriving DecidableEq, Repr

/-- The constant `linebot.EventTypeMessage`. -/
def EventTypeMessage : String := "message"

/-- Source `LineRequest`. `Events` is a `[]*linebot.Event`: an entry is a
pointer to an event, or the nil pointer `none` (a JSON `null` in the array). -/
structure LineRequest where
  Events : List (Option Event)
  Destination : String
  deriving DecidableEq, Repr

/-- Source `Translated`. -/
structure Translated where
  DetectedSourceLaguage : String
  Text : String
  deriving DecidableEq, Repr

/-- Source `DeepLResponse`. -/
structure DeepLResponse where
  Translations : List Translated
  deriving DecidableEq, Repr

/-- The field of `events.APIGatewayProxyRequest` that the program reads. -/
structure APIGatewayProxyRequest where
  Body : String
  deriving DecidableEq, Repr

/-- The fields of `events.APIGatewayProxyResponse` that the program sets. -/
structure APIGatewayProxyResponse where
  Body : String
  StatusCode : Int
  deriving DecidableEq, Repr

/-- What the program does not compute itself: the environment variables, the
decoders of `encoding/json`, the translation provider behind `http.PostForm`
and the messaging platform behind `ReplyMessage(...).Do()`. The calls made
while the event of index `i` is handled receive `i`, so that each call has an
outcome of its own. -/
structure World where
  /-- Go `os.Getenv`. -/
  getenv : String → String
  /-- Go `json.Unmarshal` into a `LineRequest`. -/
  unmarshalLineRequest : String → Except String LineRequest
  /-- Go `http.PostForm`: an error, or the response of the provider. -/
  postForm : Nat → String → Values → Except String Response
  /-- Go `(*json.Decoder).Decode` into a `map[string]interface{}`. -/
  decodeMap : MapDecoder
  /-- Go `json.Unmarshal` into a `DeepLResponse`. -/
  unmarshalDeepL : String → Except String DeepLResponse
  /-- The call `bot.ReplyMessage(token, text).Do()`: `none` when it succeeds. -/
  replyDo : Nat → String → String → Option String

/-- What an invocation does to the outside, in order. -/
inductive Effect where
  /-- A form posted to the translation provider. -/
  | posted (endpoint : String) (params : Values)
  /-- A text message sent as the reply for a reply token. -/
  | replied (token : String) (text : String)
  /-- A line written by package `log`. -/
  | logged (msg : String)
  deriving DecidableEq, Repr

/-- How a piece of the program hands on control. -/
inductive Control where
  /-- It reaches its end and the next statement runs. -/
  | continues
  /-- It calls `log.Fatal`, which prints and calls `os.Exit(1)`. -/
  | exits
  /-- It panics at run time (a nil pointer is dereferenced). -/
  | panics
  deriving DecidableEq, Repr

/-- The effects of a piece of the program, and how it hands on control. -/
structure Run where
  trace : List Effect
  control : Control
  deriving DecidableEq, Repr

/-- Source `UnmarshalLineRequest`. -/
def UnmarshalLineRequest (w : World) (data : String) : Except String LineRequest :=
  w.unmarshalLineRequest data

/-- The function `linebot.New`: it refuses an empty secret and an empty token. -/
def linebotNew (channelSecret channelToken : String) : Option String :=
  if channelSecret = "" then some "missing channel secret"
  else if channelToken = "" then some "missing channel access token"
  else none

/-- Go `ioutil.ReadAll` on a body: what was read, and the error if the stream failed. -/
def readAll (b : Body) : String × Option String := (b.unread, b.failure)

/-- Source `ParseResponse`. -/
def ParseResponse (w : World) (resp : Response) : DeepLResponse × Option String :=
  match readAll resp.Body with
  | (_, some err) => (⟨[]⟩, some (err ++ " (occurred while parse response)"))
  | (body, none) =>
    match w.unmarshalDeepL body with
    | Except.error err => (⟨[]⟩, some (err ++ " (occurred while parse response)"))
    | Except.ok responseJson => (responseJson, none)

/-- The form `params` that `getTranslation` has built when it calls
`http.PostForm` (lines 87-96). -/
def translationParams (w : World) (text : String) : Values :=
  let params := Values.empty
  let params := params.Add "auth_key" (w.getenv "ACCESSTOKEN")
  let params := params.Add "text" text
  if distinctLanguage text then
    (params.Add "source_lang" "JA").Add "target_lang" "EN"
  else
    (params.Add "source_lang" "EN").Add "target_lang" "JA"

/-- The constant `Endpoint` of `getTranslation`. -/
def Endpoint : String := "https://api-free.deepl.com/v2/translate"

/-- Source `getTranslation`, for the event `e` of index `i`. The result of the
final `ReplyMessage(...).Do()` is discarded by the source. -/
def getTranslation (w : World) (i : Nat) (e : Event) (text : String) : Run :=
  let params := translationParams w text
  match w.postForm i Endpoint params with
  | Except.error err =>
    ⟨[Effect.posted Endpoint params, Effect.logged err], Control.exits⟩
  | Except.ok resp =>
    match ValidateResponse w.decodeMap resp with
    | (some err, _) => ⟨[Effect.posted Endpoint params, Effect.logged err], Control.exits⟩
    | (none, resp) =>
      match ParseResponse w resp with
      | (_, some err) => ⟨[Effect.posted Endpoint params, Effect.logged err], Control.exits⟩
      | (parsed, none) =>
        let r := parsed.Translations.map (fun translated => translated.Text)
        let result := "-".intercalate r
        ⟨[Effect.posted Endpoint params, Effect.replied e.ReplyToken result],
          Control.continues⟩

/-- The constant `backMsg` of `Handler`. -/
def backMsg : String := "文字情報を入力してください。"

/-- The body of the loop of `Handler` for the entry `e` of index `i` of the
slice. The body starts by reading `e.Type`, which panics for the nil pointer. -/
def handleEvent (w : World) (i : Nat) (e : Option Event) : Run :=
  match e with
  | none => ⟨[], Control.panics⟩
  | some e =>
    if e.Type_ = EventTypeMessage then
      match e.Message with
      | Message.text Text => getTranslation w i e Text
      | _ =>
        match w.replyDo i e.ReplyToken backMsg with
        | some err =>
          ⟨[Effect.replied e.ReplyToken backMsg, Effect.logged err], Control.continues⟩
        | none => ⟨[Effect.replied e.ReplyToken backMsg], Control.continues⟩
    else ⟨[], Control.continues⟩

/-- The loop of `Handler` from the entry of index `i` on: the next entry is
handled only when the body reached its end for the one before. -/
def handleEvents (w : World) : Nat → List (Option Event) → Run
  | _, [] => ⟨[], Control.continues⟩
  | i, e :: rest =>
    let first := handleEvent w i e
    match first.control with
    | Control.continues =>
      let later := handleEvents w (i + 1) rest
      ⟨first.trace ++ later.trace, later.control⟩
    | _ => first

/-- How an invocation ends: the process exits in `log.Fatal`, the handler
panics, or `Handler` returns its response with a nil error. -/
inductive Outcome where
  | exited (trace : List Effect)
  | panicked (trace : List Effect)
  | returned (trace : List Effect) (response : APIGatewayProxyResponse)
  deriving DecidableEq, Repr

/-- Source `Handler`. -/
def Handler (w : World) (request : APIGatewayProxyRequest) : Outcome :=
  match UnmarshalLineRequest w request.Body with
  | Except.error err => Outcome.exited [Effect.logged err]
  | Except.ok myLineRequest =>
    match linebotNew (w.getenv "CHANNELSECRET") (w.getenv "LINEACCESSTOKEN") with
    | some err => Outcome.exited [Effect.logged err]
    | none =>
      let run := handleEvents w 0 myLineRequest.Events
      match run.control with
      | Control.continues => Outcome.returned run.trace ⟨request.Body, 200⟩
      | Control.exits => Outcome.exited run.trace
      | Control.panics => Outcome.panicked run.trace

/-- The effects of an invocation, however it ended. -/
def Outcome.trace : Outcome → List Effect
  | Outcome.exited trace => trace
  | Outcome.panicked trace => trace
  | Outcome.returned trace _ => trace

/-! ## Worlds for the examples -/

/-- Dropping leading JSON white space (space, tab, line feed, carriage return). -/
def skipSpace : List Char → List Char
  | [] => []
  | c :: cs =>
    if c.toNat = 0x20 ∨ c.toNat = 0x09 ∨ c.toNat = 0x0A ∨ c.toNat = 0x0D then skipSpace cs
    else c :: cs

/-- Reading a JSON string after its opening quote, up to the closing quote:
the string (collected in `acc`, reversed) and what follows it. The escapes
`\"`, `\\` and `\/` are read; other escapes and control characters are refused. -/
def scanString : List Char → List Char → Option (String × List Char)
  | [], _ => none
  | c :: cs, acc =>
    if c.toNat = 0x22 then some (String.mk acc.reverse, cs)
    else if c.toNat = 0x5C then
      match cs with
      | d :: ds =>
        if d.toNat = 0x22 ∨ d.toNat = 0x5C ∨ d.toNat = 0x2F then scanString ds (d :: acc)
        else none
      | [] => none
    else if c.toNat < 0x20 then none
    else scanString cs (c :: acc)

/-- Reading a value of a field: a string, `null`, `true` or `false`. -/
def scanValue (cs : List Char) : Option (Value × List Char) :=
  match cs with
  | c :: rest =>
    if c.toNat = 0x22 then
      match scanString rest [] with
      | some (s, after) => some (Value.str s, after)
      | none => none
    else if "null".data.isPrefixOf cs then some (Value.nil, cs.drop 4)
    else if "true".data.isPrefixOf cs then some (Value.other "%!s(bool=true)", cs.drop 4)
    else if "false".data.isPrefixOf cs then some (Value.other "%!s(bool=false)", cs.drop 5)
    else none
  | [] => none

/-- Reading the fields of an object after its opening brace or after a comma:
`"key" : value` followed by `,` and more fields, or by the closing brace. A
repeated key keeps its last value, as a Go map does. -/
def scanFields : Nat → List Char → JSONMap → Option JSONMap
  | 0, _, _ => none
  | fuel + 1, cs, acc =>
    match skipSpace cs with
    | c :: rest =>
      if c.toNat = 0x22 then
        match scanString rest [] with
        | some (key, after) =>
          match skipSpace after with
          | colon :: afterColon =>
            if colon.toNat = 0x3A then
              match scanValue (skipSpace afterColon) with
              | some (v, afterValue) =>
                let acc := (key, v) :: acc.filter (fun kv => kv.1 != key)
                match skipSpace afterValue with
                | sep :: afterSep =>
                  if sep.toNat = 0x2C then scanFields fuel afterSep acc
                  else if sep.toNat = 0x7D then some acc
                  else none
                | [] => none
              | none => none
            else none
          | [] => none
        | none => none
      else none
    | [] => none

/-- A decoder for the bodies of the examples: the literal `null` (the map
stays nil), or one JSON object whose values are strings, `null`, `true` or
`false`. It reports an error on any other body, and has read the body to its
end when it returns. It stands in for `encoding/json` on these bodies only:
the library also reads numbers, nested values and the other escapes, and the
theorems below hold for every decoder. -/
def decodeFlatObject : MapDecoder := fun body =>
  let rest : Body := ⟨"", body.failure⟩
  match skipSpace body.unread.data with
  | c :: cs =>
    if "null".data.isPrefixOf (c :: cs) then (Except.ok [], rest)
    else if c.toNat = 0x7B then
      match skipSpace cs with
      | d :: _ =>
        if d.toNat = 0x7D then (Except.ok [], rest)
        else
          match scanFields (cs.length + 1) cs [] with
          | some data => (Except.ok data, rest)
          | none => (Except.error "invalid character", rest)
      | [] => (Except.error "unexpected EOF", rest)
    else (Except.error "invalid character", rest)
  | [] => (Except.error "EOF", rest)


/-- A world for the examples: the request body decodes to `events`, the
environment variables are set, the provider fails for the events listed in
`providerDown` and otherwise answers 200 with one translation, and sending a
reply fails for the events listed in `replyDown`. -/
def exampleWorld (events : List (Option Event)) (providerDown replyDown : List Nat) :
    World where
  getenv := fun name =>
    if name = "CHANNELSECRET" then "secret"
    else if name = "LINEACCESSTOKEN" then "token"
    else if name = "ACCESSTOKEN" then "key"
    else ""
  unmarshalLineRequest := fun _ => Except.ok ⟨events, "U0"⟩
  postForm := fun i _ _ =>
    if i ∈ providerDown then Except.error "dial tcp: i/o timeout"
    else Except.ok ⟨200, ⟨"\x7b\"translations\":[\x7b\"text\":\"hi\"\x7d]\x7d", none⟩⟩
  decodeMap := decodeFlatObject
  unmarshalDeepL := fun _ => Except.ok ⟨[⟨"JA", "hi"⟩]⟩
  replyDo := fun i _ _ => if i ∈ replyDown then some "reply failed" else none

/-! ## The tables decide membership -/

/-- The 16-bit ranges are in increasing order, do not overlap, and fit 16 bits. -/
def Sorted16 (ranges : List Range16) : Prop :=
  ranges.Pairwise (fun a b => a.Hi < b.Lo) ∧ ∀ e ∈ ranges, e.Lo ≤ e.Hi ∧ e.Hi < 2 ^ 16

/-- The 32-bit ranges are in increasing order, do not overlap, and lie above 16 bits. -/
def Sorted32 (ranges : List Range32) : Prop :=
  ranges.Pairwise (fun a b => a.Hi < b.Lo) ∧ ∀ e ∈ ranges, e.Lo ≤ e.Hi ∧ 2 ^ 16 ≤ e.Lo

instance (ranges : List Range16) : Decidable (Sorted16 ranges) := by
  unfold Sorted16; infer_instance

instance (ranges : List Range32) : Decidable (Sorted32 ranges) := by
  unfold Sorted32; infer_instance

/-- A table as Go generates them: both lists sorted, short enough for the linear scan. -/
def RangeTable.WellFormed (t : RangeTable) : Prop :=
  Sorted16 t.R16 ∧ Sorted32 t.R32 ∧ t.R16.length ≤ linearMax ∧ t.R32.length ≤ linearMax

instance (t : RangeTable) : Decidable t.WellFormed := by
  unfold RangeTable.WellFormed; infer_instance

theorem stride_check (s x : Nat) : ((s == 1 || x % s == 0) = true) ↔ x % s = 0 := by
  by_cases h : s = 1
  · subst h; simp [Nat.mod_one]
  · simp [h]

theorem is16Linear_iff (ranges : List Range16) (r : Nat) (hs : Sorted16 ranges) :
    is16Linear ranges r = true ↔
      ∃ e ∈ ranges, e.Lo ≤ r ∧ r ≤ e.Hi ∧ (r - e.Lo) % e.Stride = 0 := by
  induction ranges with
  | nil => simp [is16Linear]
  | cons a rest ih =>
    obtain ⟨hp, hb⟩ := hs
    rw [List.pairwise_cons] at hp
    have hrest : Sorted16 rest := ⟨hp.2, fun e he => hb e (List.mem_cons_of_mem _ he)⟩
    have ha := hb a (List.mem_cons_self _ _)
    unfold is16Linear
    by_cases h1 : r < a.Lo
    · simp only [h1, if_true]
      constructor
      · intro h; cases h
      · rintro ⟨e, he, h2, h3, _⟩
        rcases List.mem_cons.1 he with rfl | he
        · omega
        · have := hp.1 e he; omega
    · simp only [h1, if_false]
      by_cases h2 : r ≤ a.Hi
      · simp only [h2, if_true, stride_check]
        constructor
        · intro h; exact ⟨a, List.mem_cons_self _ _, by omega, h2, h⟩
        · rintro ⟨e, he, h3, h4, h5⟩
          rcases List.mem_cons.1 he with rfl | he
          · exact h5
          · have := hp.1 e he; omega
      · simp only [h2, if_false, ih hrest]
        constructor
        · rintro ⟨e, he, h⟩; exact ⟨e, List.mem_cons_of_mem _ he, h⟩
        · rintro ⟨e, he, h3, h4, h5⟩
          rcases List.mem_cons.1 he with rfl | he
          · omega
          · exact ⟨e, he, h3, h4, h5⟩

theorem is32Linear_iff (ranges : List Range32) (r : Nat) (hs : Sorted32 ranges) :
    is32Linear ranges r = true ↔
      ∃ e ∈ ranges, e.Lo ≤ r ∧ r ≤ e.Hi ∧ (r - e.Lo) % e.Stride = 0 := by
  induction ranges with
  | nil => simp [is32Linear]
  | cons a rest ih =>
    obtain ⟨hp, hb⟩ := hs
    rw [List.pairwise_cons] at hp
    have hrest : Sorted32 rest := ⟨hp.2, fun e he => hb e (List.mem_cons_of_mem _ he)⟩
    have ha := hb a (List.mem_cons_self _ _)
    unfold is32Linear
    by_cases h1 : r < a.Lo
    · simp only [h1, if_true]
      constructor
      · intro h; cases h
      · rintro ⟨e, he, h2, h3, _⟩
        rcases List.mem_cons.1 he with rfl | he
        · omega
        · have := hp.1 e he; omega
    · simp only [h1, if_false]
      by_cases h2 : r ≤ a.Hi
      · simp only [h2, if_true, stride_check]
        constructor
        · intro h; exact ⟨a, List.mem_cons_self _ _, by omega, h2, h⟩
        · rintro ⟨e, he, h3, h4, h5⟩
          rcases List.mem_cons.1 he with rfl | he
          · exact h5
          · have := hp.1 e he; omega
      · simp only [h2, if_false, ih hrest]
        constructor
        · rintro ⟨e, he, h⟩; exact ⟨e, List.mem_cons_of_mem _ he, h⟩
        · rintro ⟨e, he, h3, h4, h5⟩
          rcases List.mem_cons.1 he with rfl | he
          · omega
          · exact ⟨e, he, h3, h4, h5⟩

/-- In a sorted list no range reaches above the last one. -/
theorem le_last16 (ranges : List Range16) (l : Range16) (hs : Sorted16 ranges)
    (hl : ranges.getLast? = some l) : ∀ e ∈ ranges, e.Hi ≤ l.Hi := by
  induction ranges with
  | nil => intro e he; cases he
  | cons a rest ih =>
    obtain ⟨hp, hb⟩ := hs
    rw [List.pairwise_cons] at hp
    have hrest : Sorted16 rest := ⟨hp.2, fun e he => hb e (List.mem_cons_of_mem _ he)⟩
    cases rest with
    | nil =>
      simp at hl; subst hl
      intro e he; simp at he; subst he; exact le_rfl
    | cons b rest2 =>
      have hl2 : (b :: rest2).getLast? = some l := by
        simpa [List.getLast?_cons_cons] using hl
      intro e he
      rcases List.mem_cons.1 he with rfl | he
      · have h1 := hp.1 b (List.mem_cons_self _ _)
        have h2 := ih hrest hl2 b (List.mem_cons_self _ _)
        have h3 := hb b (List.mem_cons_of_mem _ (List.mem_cons_self _ _))
        omega
      · exact ih hrest hl2 e he

/-- The guard on the first 32-bit range changes nothing: the linear scan
answers false below the first range by itself. -/
theorem guard32 (ranges : List Range32) (r : Nat) :
    (match ranges.head? with
      | some first32 => if first32.Lo ≤ r then is32Linear ranges r else false
      | none => false) = is32Linear ranges r := by
  cases ranges with
  | nil => simp [is32Linear]
  | cons a rest =>
    simp only [List.head?_cons]
    by_cases h : a.Lo ≤ r
    · simp [h]
    · have h1 : r < a.Lo := by omega
      simp [h, is32Linear, h1]

/-- For a well-formed table `unicode.Is` decides membership. -/
theorem Is_iff_Contains (t : RangeTable) (r : Nat) (hw : t.WellFormed) :
    Is t r = true ↔ t.Contains r := by
  obtain ⟨h16, h32, hl16, hl32⟩ := hw
  have e32 : is32 t.R32 r = is32Linear t.R32 r := by simp [is32, hl32]
  have e16 : ∀ x, is16 t.R16 x = is16Linear t.R16 x := by intro x; simp [is16, hl16]
  have no32 : r < 2 ^ 16 →
      ¬ ∃ e ∈ t.R32, e.Lo ≤ r ∧ r ≤ e.Hi ∧ (r - e.Lo) % e.Stride = 0 := by
    rintro hr ⟨e, he, h1, _, _⟩
    have := (h32.2 e he).2; omega
  unfold Is RangeTable.Contains
  rw [e32, guard32]
  cases hl : t.R16.getLast? with
  | none =>
    have hnil : t.R16 = [] := by simpa using hl
    simp only [is32Linear_iff t.R32 r h32, hnil]
    simp
  | some l =>
    have hmem : l ∈ t.R16 := List.mem_of_getLast?_eq_some hl
    have hlb := h16.2 l hmem
    simp only []
    by_cases hr : r ≤ l.Hi
    · have hmod : r % 2 ^ 16 = r := Nat.mod_eq_of_lt (by omega)
      simp only [hr, if_true, hmod, e16, is16Linear_iff t.R16 r h16]
      constructor
      · intro h; exact Or.inl h
      · rintro (h | h)
        · exact h
        · exact absurd h (no32 (by omega))
    · simp only [hr, if_false, is32Linear_iff t.R32 r h32]
      constructor
      · intro h; exact Or.inr h
      · rintro (⟨e, he, _, h2, _⟩ | h)
        · have := le_last16 t.R16 l h16 hl e he; omega
        · exact h

theorem Hiragana_wellFormed : Hiragana.WellFormed := by decide

theorem Katakana_wellFormed : Katakana.WellFormed := by decide

theorem isHiragana_iff (r : Nat) : isHiragana r = true ↔ Hiragana.Contains r := by
  simp [isHiragana, In, Is_iff_Contains Hiragana r Hiragana_wellFormed]

theorem isKatakana_iff (r : Nat) : isKatakana r = true ↔ Katakana.Contains r := by
  simp [isKatakana, In, Is_iff_Contains Katakana r Katakana_wellFormed]

/-- The members of the two script tables, as intervals. -/
theorem kana_iff (s : Nat) :
    (isHiragana s = true ∨ isKatakana s = true) ↔
      ((inHiraganaBlock s ∨ inKatakanaBlock s) ∧ ¬ blockOnly s) ∨ scriptOnly s := by
  rw [isHiragana_iff, isKatakana_iff]
  simp only [RangeTable.Contains, Hiragana, Katakana, inHiraganaBlock, inKatakanaBlock,
    blockOnly, scriptOnly, List.mem_cons, List.mem_singleton, List.not_mem_nil, or_false,
    exists_eq_or_imp, exists_eq_left, Nat.mod_one, and_true]
  constructor
  · intro h; omega
  · intro h; omega

/-! ## The classifier -/

theorem distinctLanguageLoop_eq_any (rs : List Nat) :
    distinctLanguageLoop rs = rs.any (fun s => isHiragana s || isKatakana s) := by
  induction rs with
  | nil => rfl
  | cons s rest ih =>
    simp only [distinctLanguageLoop, List.any_cons, ih]
    cases isHiragana s <;> cases isKatakana s <;> simp

theorem distinctLanguageLoop_iff (rs : List Nat) :
    distinctLanguageLoop rs = true ↔ ∃ s ∈ rs, isHiragana s = true ∨ isKatakana s = true := by
  simp [distinctLanguageLoop_eq_any]

theorem distinctLanguageLoop_false_iff (rs : List Nat) :
    distinctLanguageLoop rs = false ↔
      ∀ s ∈ rs, isHiragana s = false ∧ isKatakana s = false := by
  simp [distinctLanguageLoop_eq_any]

/-- C1: `distinctLanguage text` is true exactly when some code point of the
text is a member of the Hiragana or of the Katakana script table; it equals
"some code point satisfies `isHiragana` or `isKatakana`", so returning at the
first match changes nothing; and the mixed text of the specification is
classified as Japanese. -/
theorem distinctLanguage_iff_script_member (text : String) :
    (distinctLanguage text = true ↔
      ∃ s ∈ runes text, Hiragana.Contains s ∨ Katakana.Contains s) ∧
    distinctLanguage text = (runes text).any (fun s => isHiragana s || isKatakana s) ∧
    distinctLanguage "hello世界こんにちは" = true := by
  refine ⟨?_, distinctLanguageLoop_eq_any _, by decide⟩
  unfold distinctLanguage
  rw [distinctLanguageLoop_iff]
  simp only [isHiragana_iff, isKatakana_iff]

/-- C2, as stated, fails in both directions: the prolonged sound mark
`U+30FC` lies in the Katakana block and the text "ー" is classified false;
the halfwidth katakana `U+FF71` lies in neither block and the text "ｱ" is
classified true. -/
theorem distinctLanguage_not_block_test :
    ((∃ s ∈ runes "ー", inHiraganaBlock s ∨ inKatakanaBlock s) ∧
      distinctLanguage "ー" = false) ∧
    ((∀ s ∈ runes "ｱ", ¬ (inHiraganaBlock s ∨ inKatakanaBlock s)) ∧
      distinctLanguage "ｱ" = true) := by
  decide

/-- C2, amended: a text with a code point of the Hiragana or Katakana block
other than `U+3040`, `U+3097..U+309C`, `U+30A0`, `U+30FB`, `U+30FC` is
classified true; a text with no code point in the two blocks and none of the
script members outside the blocks is classified false. -/
theorem distinctLanguage_blocks_amended (text : String) :
    ((∃ s ∈ runes text, (inHiraganaBlock s ∨ inKatakanaBlock s) ∧ ¬ blockOnly s) →
      distinctLanguage text = true) ∧
    ((∀ s ∈ runes text, ¬ (inHiraganaBlock s ∨ inKatakanaBlock s) ∧ ¬ scriptOnly s) →
      distinctLanguage text = false) := by
  unfold distinctLanguage
  constructor
  · rintro ⟨s, hs, h⟩
    rw [distinctLanguageLoop_iff]
    exact ⟨s, hs, (kana_iff s).2 (Or.inl h)⟩
  · intro h
    rw [distinctLanguageLoop_false_iff]
    intro s hs
    have hn : ¬ (isHiragana s = true ∨ isKatakana s = true) := by
      rw [kana_iff]
      rintro (h1 | h1)
      · exact (h s hs).1 h1.1
      · exact (h s hs).2 h1
    constructor
    · cases hh : isHiragana s
      · rfl
      · exact absurd (Or.inl hh) hn
    · cases hk : isKatakana s
      · rfl
      · exact absurd (Or.inr hk) hn

/-- Witness of the amended C2: "こんにちは" has a hiragana code point of the
block, "hello" has no code point near the blocks or the tables. -/
theorem distinctLanguage_blocks_amended_witness :
    distinctLanguage "こんにちは" = true ∧ distinctLanguage "hello" = false :=
  ⟨(distinctLanguage_blocks_amended "こんにちは").1 (by decide),
   (distinctLanguage_blocks_amended "hello").2 (by decide)⟩

/-- A member of one of the ranges lies between the bounds of that range. -/
theorem inRanges_iff (ranges : List (Nat × Nat)) (s : Nat) :
    inRanges ranges s = true ↔ ∃ r ∈ ranges, r.1 ≤ s ∧ s ≤ r.2 := by
  simp [inRanges]

/-- Ranges that lie apart from every entry of a table hold none of its members. -/
theorem not_Contains_of_rangesAvoid (ranges : List (Nat × Nat)) (t : RangeTable) (s : Nat)
    (ha : rangesAvoid ranges t = true) (hs : inRanges ranges s = true) : ¬ t.Contains s := by
  obtain ⟨r, hr, h1, h2⟩ := (inRanges_iff ranges s).1 hs
  simp only [rangesAvoid, List.all_eq_true, Bool.and_eq_true, Bool.or_eq_true,
    decide_eq_true_eq] at ha
  obtain ⟨h16, h32⟩ := ha r hr
  rintro (⟨e, he, h3, h4, _⟩ | ⟨e, he, h3, h4, _⟩)
  · have := h16 e he; omega
  · have := h32 e he; omega

set_option maxRecDepth 100000 in
theorem classes_avoid_kana :
    (rangesAvoid LatinLetterRanges Hiragana = true ∧
      rangesAvoid LatinLetterRanges Katakana = true) ∧
    (rangesAvoid DecimalDigitRanges Hiragana = true ∧
      rangesAvoid DecimalDigitRanges Katakana = true) ∧
    (rangesAvoid PunctuationRanges Hiragana = true ∧
      rangesAvoid PunctuationRanges Katakana = true) ∧
    (rangesAvoid CJKUnifiedIdeographRanges Hiragana = true ∧
      rangesAvoid CJKUnifiedIdeographRanges Katakana = true) := by
  decide

/-- The classes of code points that the specification lists as not Japanese
syllabary are disjoint from both script tables. -/
theorem other_scripts_not_kana (s : Nat)
    (h : isLatinLetter s ∨ isDecimalDigit s ∨ isPunctuation s ∨ isCJKUnifiedIdeograph s) :
    isHiragana s = false ∧ isKatakana s = false := by
  obtain ⟨⟨l1, l2⟩, ⟨d1, d2⟩, ⟨p1, p2⟩, ⟨c1, c2⟩⟩ := classes_avoid_kana
  have hh : ¬ Hiragana.Contains s := by
    rcases h with h | h | h | h
    · exact not_Contains_of_rangesAvoid _ _ s l1 h
    · exact not_Contains_of_rangesAvoid _ _ s d1 h
    · exact not_Contains_of_rangesAvoid _ _ s p1 h
    · exact not_Contains_of_rangesAvoid _ _ s c1 h
  have hk : ¬ Katakana.Contains s := by
    rcases h with h | h | h | h
    · exact not_Contains_of_rangesAvoid _ _ s l2 h
    · exact not_Contains_of_rangesAvoid _ _ s d2 h
    · exact not_Contains_of_rangesAvoid _ _ s p2 h
    · exact not_Contains_of_rangesAvoid _ _ s c2 h
  rw [← isHiragana_iff] at hh
  rw [← isKatakana_iff] at hk
  exact ⟨by simpa using hh, by simpa using hk⟩

/-- C3: a text all of whose code points are Latin letters, decimal digits,
punctuation or CJK unified ideographs is classified false, and none of its
code points is hiragana or katakana: the four classes are disjoint from both
script tables, so the condition "with no hiragana or katakana code point" of
the specification holds by itself. The empty text and "hello" are classified
false. -/
theorem distinctLanguage_false_of_other_scripts (text : String)
    (h : ∀ s ∈ runes text,
      isLatinLetter s ∨ isDecimalDigit s ∨ isPunctuation s ∨ isCJKUnifiedIdeograph s) :
    distinctLanguage text = false ∧
    (∀ s ∈ runes text, isHiragana s = false ∧ isKatakana s = false) ∧
    distinctLanguage "" = false ∧ distinctLanguage "hello" = false := by
  have hk : ∀ s ∈ runes text, isHiragana s = false ∧ isKatakana s = false :=
    fun s hs => other_scripts_not_kana s (h s hs)
  refine ⟨?_, hk, by decide, by decide⟩
  unfold distinctLanguage
  rw [distinctLanguageLoop_false_iff]
  exact hk

/-- Witness of C3: Latin letters with an accent, inverted and ASCII
punctuation, kanji, the Arabic-Indic digit three (`U+0663`) and ASCII digits. -/
theorem distinctLanguage_false_of_other_scripts_witness :
    (∀ s ∈ runes "¿Qué?世界\u06632024!",
      isLatinLetter s ∨ isDecimalDigit s ∨ isPunctuation s ∨ isCJKUnifiedIdeograph s) ∧
    distinctLanguage "¿Qué?世界\u06632024!" = false :=
  ⟨by decide, (distinctLanguage_false_of_other_scripts "¿Qué?世界\u06632024!" (by decide)).1⟩

/-! ## The translation request -/

/-- C4: the form that `getTranslation` posts holds exactly one `source_lang`
and one `target_lang`, `JA` and `EN` when `distinctLanguage text` is true, `EN`
and `JA` when it is false, and its `text` is the input text unchanged; the
first thing `getTranslation` does to the outside is to post this form.
"こんにちは" gives `(JA, EN)` and "hello" gives `(EN, JA)`. -/
theorem translationParams_languages (w : World) (i : Nat) (e : Event) (text : String) :
    ((translationParams w text).index "source_lang",
      (translationParams w text).index "target_lang") =
        (if distinctLanguage text then (["JA"], ["EN"]) else (["EN"], ["JA"])) ∧
    (translationParams w text).index "text" = [text] ∧
    (getTranslation w i e text).trace.head? =
      some (Effect.posted Endpoint (translationParams w text)) ∧
    ((translationParams w "こんにちは").index "source_lang",
      (translationParams w "こんにちは").index "target_lang") = (["JA"], ["EN"]) ∧
    ((translationParams w "hello").index "source_lang",
      (translationParams w "hello").index "target_lang") = (["EN"], ["JA"]) := by
  have key : ∀ t : String,
      ((translationParams w t).index "source_lang",
        (translationParams w t).index "target_lang") =
          (if distinctLanguage t then (["JA"], ["EN"]) else (["EN"], ["JA"])) := by
    intro t
    unfold translationParams
    cases distinctLanguage t <;>
      simp [Values.Add, Values.empty, Values.index, addEntry, List.find?]
  have hja : distinctLanguage "こんにちは" = true := by decide
  have hen : distinctLanguage "hello" = false := by decide
  refine ⟨key text, ?_, ?_, ?_, ?_⟩
  · unfold translationParams
    cases distinctLanguage text <;>
      simp [Values.Add, Values.empty, Values.index, addEntry, List.find?]
  · unfold getTranslation
    simp only []
    split
    · rfl
    · split
      · rfl
      · split <;> rfl
  · rw [key, hja]; rfl
  · rw [key, hen]; rfl


/-! ## Response validation -/

/-- The statuses that `KnownErrors` explains. -/
theorem KnownErrors_isSome_iff (code : Int) :
    (KnownErrors code).isSome = true ↔
      code ∈ [400, 403, 404, 413, 414, 429, 456, 503, 529] := by
  unfold KnownErrors
  simp only [List.mem_cons, List.mem_singleton, List.not_mem_nil, or_false]
  split_ifs <;> simp_all

/-- The text built before the body is decoded. -/
theorem baseErrorText_eq (code : Int) :
    baseErrorText code =
      "Invalid response [" ++ toString code ++ " " ++ StatusText code ++ "]" ++
        (match KnownErrors code with
          | some t => " " ++ t
          | none => "") := by
  unfold baseErrorText
  cases KnownErrors code <;> simp

theorem append_ne_self (a b : String) (hb : b ≠ "") : a ++ b ≠ a := by
  intro h
  have hl := congrArg String.data h
  rw [String.data_append, List.append_right_eq_self] at hl
  exact hb (String.ext hl)

/-- C5: `ValidateResponse` returns no error exactly when the status is in
`[200, 300)`; for such a status the result is nil whatever the body and the
decoder are, and the response is returned with its body untouched. -/
theorem ValidateResponse_nil_iff (decode : MapDecoder) (resp : Response) :
    ((ValidateResponse decode resp).1 = none ↔
      200 ≤ resp.StatusCode ∧ resp.StatusCode < 300) ∧
    (200 ≤ resp.StatusCode ∧ resp.StatusCode < 300 →
      ValidateResponse decode resp = (none, resp)) := by
  unfold ValidateResponse
  by_cases h : resp.StatusCode < 200 ∨ resp.StatusCode ≥ 300
  · simp only [h, if_true]
    constructor
    · constructor
      · intro hn
        rcases hd : decode resp.Body with ⟨r, rest⟩
        rw [hd] at hn
        cases r <;> simp at hn
      · intro h2; omega
    · intro h2; omega
  · simp only [h, if_false]
    constructor
    · constructor
      · intro _; omega
      · intro _; trivial
    · intro _; trivial

/-- Witness of C5: status 200 with a body that is not JSON. -/
theorem ValidateResponse_nil_iff_witness :
    ValidateResponse decodeFlatObject ⟨200, ⟨"<html>not JSON</html>", none⟩⟩ =
      (none, ⟨200, ⟨"<html>not JSON</html>", none⟩⟩) :=
  (ValidateResponse_nil_iff decodeFlatObject ⟨200, ⟨"<html>not JSON</html>", none⟩⟩).2
    (by decide)

/-- C6: for a status outside `[200, 300)` and a body that decodes to an object
whose `message` is the string `m`, the error text is
`Invalid response [<status> <status text>]`, then a blank and the explanation
when `KnownErrors` has one (which is so for 400, 403, 404, 413, 414, 429, 456,
503 and 529 only), then `, ` and `m`. -/
theorem ValidateResponse_message (decode : MapDecoder) (resp : Response) (data : JSONMap)
    (rest : Body) (m : String)
    (hs : resp.StatusCode < 200 ∨ 300 ≤ resp.StatusCode)
    (hd : decode resp.Body = (Except.ok data, rest))
    (hm : mapIndex data "message" = Value.str m) :
    (ValidateResponse decode resp).1 =
      some ("Invalid response [" ++ toString resp.StatusCode ++ " " ++
        StatusText resp.StatusCode ++ "]" ++
        (match KnownErrors resp.StatusCode with
          | some t => " " ++ t
          | none => "") ++ ", " ++ m) ∧
    ((KnownErrors resp.StatusCode).isSome = true ↔
      resp.StatusCode ∈ [400, 403, 404, 413, 414, 429, 456, 503, 529]) ∧
    (∀ t, KnownErrors resp.StatusCode = some t →
      (ValidateResponse decode resp).1 =
        some ("Invalid response [" ++ toString resp.StatusCode ++ " " ++
          StatusText resp.StatusCode ++ "]" ++ " " ++ t ++ ", " ++ m)) := by
  have hs2 : resp.StatusCode < 200 ∨ resp.StatusCode ≥ 300 := hs
  have main : (ValidateResponse decode resp).1 =
      some (baseErrorText resp.StatusCode ++ ", " ++ m) := by
    unfold ValidateResponse
    simp only [hs2, if_true, hd, hm, fmtS]
  refine ⟨?_, KnownErrors_isSome_iff _, ?_⟩
  · rw [main, baseErrorText_eq]
  · intro t ht
    rw [main, baseErrorText_eq, ht]
    simp only [String.append_assoc]

/-- Witness of C6: status 403 with the body `{"message":"bad key"}`. -/
theorem ValidateResponse_message_witness :
    (ValidateResponse decodeFlatObject ⟨403, ⟨"\x7b\"message\":\"bad key\"\x7d", none⟩⟩).1 =
      some ("Invalid response [403 Forbidden]" ++ " " ++
        "Authorization failed. Please supply a valid auth_key parameter." ++ ", " ++
        "bad key") :=
  (ValidateResponse_message decodeFlatObject ⟨403, ⟨"\x7b\"message\":\"bad key\"\x7d", none⟩⟩
    [("message", Value.str "bad key")] ⟨"", none⟩ "bad key" (by decide) (by rfl)
    (by decide)).1

/-- C7: for a status outside `[200, 300)` and a body that the decoder refuses,
the one error returned is the base text `Invalid response [<status> <status
text>]` with a blank and the explanation when `KnownErrors` has one: nothing
follows the explanation, and the decoder's error is not part of the text. -/
theorem ValidateResponse_undecodable (decode : MapDecoder) (resp : Response) (err : String)
    (rest : Body)
    (hs : resp.StatusCode < 200 ∨ 300 ≤ resp.StatusCode)
    (hd : decode resp.Body = (Except.error err, rest)) :
    (ValidateResponse decode resp).1 =
      some ("Invalid response [" ++ toString resp.StatusCode ++ " " ++
        StatusText resp.StatusCode ++ "]" ++
        (match KnownErrors resp.StatusCode with
          | some t => " " ++ t
          | none => "")) ∧
    (∀ t, KnownErrors resp.StatusCode = some t →
      (ValidateResponse decode resp).1 =
        some ("Invalid response [" ++ toString resp.StatusCode ++ " " ++
          StatusText resp.StatusCode ++ "]" ++ " " ++ t)) := by
  have hs2 : resp.StatusCode < 200 ∨ resp.StatusCode ≥ 300 := hs
  have main : (ValidateResponse decode resp).1 = some (baseErrorText resp.StatusCode) := by
    unfold ValidateResponse
    simp only [hs2, if_true, hd]
  refine ⟨?_, ?_⟩
  · rw [main, baseErrorText_eq]
  · intro t ht
    rw [main, baseErrorText_eq, ht]
    simp only [String.append_assoc]

/-- Witness of C7: status 429 with a body that is not JSON. -/
theorem ValidateResponse_undecodable_witness :
    (ValidateResponse decodeFlatObject
        ⟨429, ⟨"<html>Too many requests</html>", none⟩⟩).1 =
      some ("Invalid response [429 Too Many Requests]" ++ " " ++
        "Too many requests. Please wait and resend your request.") :=
  (ValidateResponse_undecodable decodeFlatObject
    ⟨429, ⟨"<html>Too many requests</html>", none⟩⟩ "invalid character" ⟨"", none⟩
    (by decide) (by rfl)).1

/-- C10: for a status outside `[200, 300)`, whenever the body decodes, the
error text is the base text followed by `, ` and the `%s` form of
`data["message"]`, never the base text alone; when the decoded map has no key
`message` (as for `{}`, `{"error":"x"}` or `null`) that form is `%!s(<nil>)`,
the way `fmt` prints a nil operand. The text is the base text alone exactly
when decoding fails. The base text is `Invalid response [<status> <status
text>]` with a blank and the explanation when `KnownErrors` has one. -/
theorem ValidateResponse_absent_message (decode : MapDecoder) (resp : Response)
    (hs : resp.StatusCode < 200 ∨ 300 ≤ resp.StatusCode) :
    (∀ data rest, decode resp.Body = (Except.ok data, rest) →
      (∀ kv ∈ data, kv.1 ≠ "message") →
      (ValidateResponse decode resp).1 =
        some (baseErrorText resp.StatusCode ++ ", " ++ "%!s(<nil>)")) ∧
    (∀ data rest, decode resp.Body = (Except.ok data, rest) →
      (ValidateResponse decode resp).1 =
        some (baseErrorText resp.StatusCode ++ ", " ++ fmtS (mapIndex data "message")) ∧
      (ValidateResponse decode resp).1 ≠ some (baseErrorText resp.StatusCode)) ∧
    ((ValidateResponse decode resp).1 = some (baseErrorText resp.StatusCode) ↔
      ∃ err, (decode resp.Body).1 = Except.error err) ∧
    baseErrorText resp.StatusCode =
      "Invalid response [" ++ toString resp.StatusCode ++ " " ++
        StatusText resp.StatusCode ++ "]" ++
        (match KnownErrors resp.StatusCode with
          | some t => " " ++ t
          | none => "") := by
  have hs2 : resp.StatusCode < 200 ∨ resp.StatusCode ≥ 300 := hs
  have ok : ∀ data rest, decode resp.Body = (Except.ok data, rest) →
      (ValidateResponse decode resp).1 =
        some (baseErrorText resp.StatusCode ++ ", " ++ fmtS (mapIndex data "message")) := by
    intro data rest hd
    unfold ValidateResponse
    simp only [hs2, if_true, hd]
  have ne : ∀ data rest, decode resp.Body = (Except.ok data, rest) →
      (ValidateResponse decode resp).1 ≠ some (baseErrorText resp.StatusCode) := by
    intro data rest hd
    rw [ok data rest hd, String.append_assoc]
    intro h
    refine append_ne_self _ _ ?_ (Option.some.inj h)
    intro h0
    have := congrArg String.length h0
    rw [String.length_append] at this
    have h2 : (", " : String).length = 2 := by decide
    have h3 : ("" : String).length = 0 := by decide
    omega
  refine ⟨?_, fun data rest hd => ⟨ok data rest hd, ne data rest hd⟩, ?_, baseErrorText_eq _⟩
  · intro data rest hd hm
    have hidx : mapIndex data "message" = Value.nil := by
      unfold mapIndex
      have : data.find? (fun kv => kv.1 == "message") = none := by
        rw [List.find?_eq_none]
        intro kv hkv
        simpa using hm kv hkv
      rw [this]
    rw [ok data rest hd, hidx]
    rfl
  · rcases hd : decode resp.Body with ⟨r, rest⟩
    cases r with
    | error err =>
      constructor
      · intro _; exact ⟨err, rfl⟩
      · intro _
        unfold ValidateResponse
        simp only [hs2, if_true, hd]
    | ok data =>
      constructor
      · intro h; exact absurd h (ne data rest hd)
      · rintro ⟨err, he⟩; cases he

/-- Witness of C10: status 500 with the body `{"error":"x"}`. -/
theorem ValidateResponse_absent_message_witness :
    (ValidateResponse decodeFlatObject ⟨500, ⟨"\x7b\"error\":\"x\"\x7d", none⟩⟩).1 =
      some "Invalid response [500 Internal Server Error], %!s(<nil>)" :=
  (ValidateResponse_absent_message decodeFlatObject
    ⟨500, ⟨"\x7b\"error\":\"x\"\x7d", none⟩⟩ (by decide)).1
    [("error", Value.str "x")] ⟨"", none⟩ (by rfl) (by decide)

/-! ## The handler -/

/-- Whether `getTranslation` ends the process. -/
theorem getTranslation_exits_iff (w : World) (i : Nat) (e : Event) (text : String) :
    (getTranslation w i e text).control = Control.exits ↔
      (∃ err, w.postForm i Endpoint (translationParams w text) = Except.error err) ∨
      (∃ resp, w.postForm i Endpoint (translationParams w text) = Except.ok resp ∧
        ((ValidateResponse w.decodeMap resp).1 ≠ none ∨
          (ParseResponse w (ValidateResponse w.decodeMap resp).2).2 ≠ none)) := by
  unfold getTranslation
  simp only []
  cases hp : w.postForm i Endpoint (translationParams w text) with
  | error err => simp
  | ok resp =>
    simp only [Except.ok.injEq, exists_eq_left', false_or, reduceCtorEq, exists_false]
    rcases hv : ValidateResponse w.decodeMap resp with ⟨verr, resp2⟩
    cases verr with
    | some err => simp
    | none =>
      simp only [ne_eq, not_true_eq_false, false_or]
      rcases hq : ParseResponse w resp2 with ⟨parsed, perr⟩
      cases perr <;> simp

/-- The function `getTranslation` does not panic. -/
theorem getTranslation_not_panics (w : World) (i : Nat) (e : Event) (text : String) :
    (getTranslation w i e text).control ≠ Control.panics := by
  unfold getTranslation
  simp only []
  split
  · simp
  · split
    · simp
    · split <;> simp

/-- The loop body ends the process only in `getTranslation`. -/
theorem handleEvent_exits_iff (w : World) (i : Nat) (oe : Option Event) :
    (handleEvent w i oe).control = Control.exits ↔
      ∃ e text, oe = some e ∧ e.Type_ = EventTypeMessage ∧ e.Message = Message.text text ∧
        (getTranslation w i e text).control = Control.exits := by
  unfold handleEvent
  cases oe with
  | none => simp
  | some e =>
    simp only [Option.some.injEq, exists_and_left, exists_eq_left']
    by_cases ht : e.Type_ = EventTypeMessage
    · simp only [ht, if_true, true_and]
      cases hm : e.Message with
      | text t => simp
      | absent => cases w.replyDo i e.ReplyToken backMsg <;> simp
      | other k => cases w.replyDo i e.ReplyToken backMsg <;> simp
    · simp [ht]

/-- The loop body does not panic for an entry that is an event. -/
theorem handleEvent_some_not_panics (w : World) (i : Nat) (e : Event) :
    (handleEvent w i (some e)).control ≠ Control.panics := by
  unfold handleEvent
  by_cases ht : e.Type_ = EventTypeMessage
  · simp only [ht, if_true]
    cases hm : e.Message with
    | text t => exact getTranslation_not_panics w i e t
    | absent => cases w.replyDo i e.ReplyToken backMsg <;> simp
    | other k => cases w.replyDo i e.ReplyToken backMsg <;> simp
  · simp [ht]

/-- The loop stops at the first entry whose body does not reach its end. -/
theorem handleEvents_stop (w : World) (i : Nat) (oe : Option Event) (post : List (Option Event))
    (h : (handleEvent w i oe).control ≠ Control.continues) :
    handleEvents w i (oe :: post) = handleEvent w i oe := by
  rw [handleEvents]
  cases hc : (handleEvent w i oe).control with
  | continues => exact absurd hc h
  | exits => simp only [hc]
  | panics => simp only [hc]

/-- While the body reaches its end, the loop handles each entry once, in order. -/
theorem handleEvents_append (w : World) (pre rest : List (Option Event)) (i : Nat)
    (h : ∀ p ∈ List.enumFrom i pre, (handleEvent w p.1 p.2).control = Control.continues) :
    handleEvents w i (pre ++ rest) =
      ⟨(List.enumFrom i pre).flatMap (fun p => (handleEvent w p.1 p.2).trace) ++
        (handleEvents w (i + pre.length) rest).trace,
        (handleEvents w (i + pre.length) rest).control⟩ := by
  induction pre generalizing i with
  | nil => simp
  | cons a more ih =>
    have ha : (handleEvent w i a).control = Control.continues :=
      h (i, a) (by simp [List.enumFrom_cons])
    have hmore : ∀ p ∈ List.enumFrom (i + 1) more,
        (handleEvent w p.1 p.2).control = Control.continues :=
      fun p hp => h p (by simp [List.enumFrom_cons, hp])
    have hlen : i + 1 + more.length = i + (a :: more).length := by
      simp only [List.length_cons]; omega
    rw [List.cons_append, handleEvents]
    simp only [ha]
    rw [ih (i + 1) hmore, hlen]
    simp [List.enumFrom_cons, List.flatMap_cons, List.append_assoc]


/-- What `Handler` does when every entry lets the loop go on: it returns 200
and its effects are those of each entry, once, in order. -/
theorem Handler_all_continue (w : World) (request : APIGatewayProxyRequest) (req : LineRequest)
    (hu : UnmarshalLineRequest w request.Body = Except.ok req)
    (hb : linebotNew (w.getenv "CHANNELSECRET") (w.getenv "LINEACCESSTOKEN") = none)
    (h : ∀ p ∈ List.enumFrom 0 req.Events,
      (handleEvent w p.1 p.2).control = Control.continues) :
    Handler w request =
      Outcome.returned
        ((List.enumFrom 0 req.Events).flatMap (fun p => (handleEvent w p.1 p.2).trace))
        ⟨request.Body, 200⟩ := by
  have hs := handleEvents_append w req.Events [] 0 h
  rw [List.append_nil] at hs
  simp only [Handler, hu, hb, hs, handleEvents, List.append_nil]

/-- What `Handler` does when the loop stops at an entry: its effects are those
of the entries before it, once each and in order, and of that entry. -/
theorem Handler_stops (w : World) (request : APIGatewayProxyRequest) (req : LineRequest)
    (pre : List (Option Event)) (oe : Option Event) (post : List (Option Event))
    (hu : UnmarshalLineRequest w request.Body = Except.ok req)
    (hb : linebotNew (w.getenv "CHANNELSECRET") (w.getenv "LINEACCESSTOKEN") = none)
    (hev : req.Events = pre ++ oe :: post)
    (hpre : ∀ p ∈ List.enumFrom 0 pre, (handleEvent w p.1 p.2).control = Control.continues)
    (hoe : (handleEvent w pre.length oe).control ≠ Control.continues) :
    handleEvents w 0 req.Events =
      ⟨(List.enumFrom 0 pre).flatMap (fun p => (handleEvent w p.1 p.2).trace) ++
        (handleEvent w pre.length oe).trace, (handleEvent w pre.length oe).control⟩ ∧
    (Handler w request).trace =
      (List.enumFrom 0 pre).flatMap (fun p => (handleEvent w p.1 p.2).trace) ++
        (handleEvent w pre.length oe).trace ∧
    (∀ response trace, Handler w request ≠ Outcome.returned trace response) := by
  have hs := handleEvents_append w pre (oe :: post) 0 hpre
  rw [Nat.zero_add, handleEvents_stop w pre.length oe post hoe] at hs
  rw [← hev] at hs
  refine ⟨hs, ?_, ?_⟩
  · simp only [Handler, hu, hb, hs]
    cases hc : (handleEvent w pre.length oe).control <;> simp [Outcome.trace]
  · intro response trace
    simp only [Handler, hu, hb, hs]
    cases hc : (handleEvent w pre.length oe).control
    · exact absurd hc hoe
    · simp
    · simp

/-- C8, as stated, fails for an event that is not a message: for a batch of
one `follow` event the handler sends no reply at all and returns 200. -/
theorem Handler_follow_event_gets_no_reply :
    Handler (exampleWorld [some ⟨"follow", "t0", Message.absent⟩] [] []) ⟨"body"⟩ =
      Outcome.returned [] ⟨"body", 200⟩ := by
  decide

/-- C8, amended: a text message event is handed to `getTranslation` (and so
to the classifier); a message event of another kind posts nothing to the
provider and gets one reply, the fixed prompt; an event of another type posts
nothing and gets no reply; the last two let the loop go on. `Handler` does
this once for each event of the envelope, in order: when every entry lets the
loop go on it returns 200 with exactly the effects of each entry in turn, and
when the loop stops at an entry its effects are exactly those of the entries
before it and of that entry. -/
theorem handleEvent_routing (w : World) (i : Nat) (e : Event) :
    (∀ text, e.Type_ = EventTypeMessage → e.Message = Message.text text →
      handleEvent w i (some e) = getTranslation w i e text) ∧
    (e.Type_ = EventTypeMessage → (∀ text, e.Message ≠ Message.text text) →
      handleEvent w i (some e) =
        ⟨Effect.replied e.ReplyToken "文字情報を入力してください。" ::
          (match w.replyDo i e.ReplyToken backMsg with
            | some err => [Effect.logged err]
            | none => []), Control.continues⟩) ∧
    (e.Type_ ≠ EventTypeMessage → handleEvent w i (some e) = ⟨[], Control.continues⟩) ∧
    (∀ request req, UnmarshalLineRequest w request.Body = Except.ok req →
      linebotNew (w.getenv "CHANNELSECRET") (w.getenv "LINEACCESSTOKEN") = none →
      (∀ p ∈ List.enumFrom 0 req.Events,
        (handleEvent w p.1 p.2).control = Control.continues) →
      Handler w request =
        Outcome.returned
          ((List.enumFrom 0 req.Events).flatMap (fun p => (handleEvent w p.1 p.2).trace))
          ⟨request.Body, 200⟩) ∧
    (∀ request req pre oe post, UnmarshalLineRequest w request.Body = Except.ok req →
      linebotNew (w.getenv "CHANNELSECRET") (w.getenv "LINEACCESSTOKEN") = none →
      req.Events = pre ++ oe :: post →
      (∀ p ∈ List.enumFrom 0 pre, (handleEvent w p.1 p.2).control = Control.continues) →
      (handleEvent w pre.length oe).control ≠ Control.continues →
      (Handler w request).trace =
        (List.enumFrom 0 pre).flatMap (fun p => (handleEvent w p.1 p.2).trace) ++
          (handleEvent w pre.length oe).trace) := by
  refine ⟨?_, ?_, ?_, fun request req hu hb h => Handler_all_continue w request req hu hb h,
    fun request req pre oe post hu hb hev hpre hoe =>
      (Handler_stops w request req pre oe post hu hb hev hpre hoe).2.1⟩ <;>
    unfold handleEvent
  · intro text ht hm
    simp only [ht, if_true, hm]
  · intro ht hm
    simp only [ht, if_true]
    cases hmsg : e.Message with
    | text t => exact absurd hmsg (hm t)
    | absent => cases w.replyDo i e.ReplyToken backMsg <;> rfl
    | other k => cases w.replyDo i e.ReplyToken backMsg <;> rfl
  · intro ht
    simp only [ht, if_false]

/-- Witness of the amended C8: a sticker message gets the prompt, a follow
event gets nothing, a text message is translated; a batch of a sticker, a
follow event and an image gets the prompt twice and returns 200. -/
theorem handleEvent_routing_witness :
    handleEvent (exampleWorld [] [] []) 0 (some ⟨"message", "t0", Message.other "sticker"⟩) =
      ⟨[Effect.replied "t0" "文字情報を入力してください。"], Control.continues⟩ ∧
    handleEvent (exampleWorld [] [] []) 1 (some ⟨"follow", "t1", Message.absent⟩) =
      ⟨[], Control.continues⟩ ∧
    handleEvent (exampleWorld [] [] []) 2 (some ⟨"message", "t2", Message.text "hello"⟩) =
      getTranslation (exampleWorld [] [] []) 2 ⟨"message", "t2", Message.text "hello"⟩
        "hello" ∧
    Handler (exampleWorld [some ⟨"message", "t0", Message.other "sticker"⟩,
        some ⟨"follow", "t1", Message.absent⟩,
        some ⟨"message", "t2", Message.other "image"⟩] [] []) ⟨"body"⟩ =
      Outcome.returned [Effect.replied "t0" "文字情報を入力してください。",
        Effect.replied "t2" "文字情報を入力してください。"] ⟨"body", 200⟩ :=
  ⟨(handleEvent_routing (exampleWorld [] [] []) 0
      ⟨"message", "t0", Message.other "sticker"⟩).2.1 (by decide)
      (fun _ h => Message.noConfusion h),
   (handleEvent_routing (exampleWorld [] [] []) 1 ⟨"follow", "t1", Message.absent⟩).2.2.1
      (by decide),
   (handleEvent_routing (exampleWorld [] [] []) 2
      ⟨"message", "t2", Message.text "hello"⟩).1 "hello" (by decide) rfl,
   (handleEvent_routing (exampleWorld [some ⟨"message", "t0", Message.other "sticker"⟩,
        some ⟨"follow", "t1", Message.absent⟩,
        some ⟨"message", "t2", Message.other "image"⟩] [] []) 0
      ⟨"follow", "t1", Message.absent⟩).2.2.2.1 ⟨"body"⟩
      ⟨[some ⟨"message", "t0", Message.other "sticker"⟩,
        some ⟨"follow", "t1", Message.absent⟩,
        some ⟨"message", "t2", Message.other "image"⟩], "U0"⟩ rfl (by decide) (by decide)⟩

/-- C9, as stated, fails for the step "sending a reply": the reply to the
first event (an image) fails, the error is logged, the second event is still
handled and the invocation returns 200. -/
theorem Handler_reply_failure_not_terminal :
    Handler (exampleWorld [some ⟨"message", "t0", Message.other "image"⟩,
        some ⟨"message", "t1", Message.other "sticker"⟩] [] [0]) ⟨"body"⟩ =
      Outcome.returned [Effect.replied "t0" backMsg, Effect.logged "reply failed",
        Effect.replied "t1" backMsg] ⟨"body", 200⟩ := by
  decide

/-- C9, amended: a failure of the envelope decode, of `linebot.New`, of the
provider call, of the response validation or of the response parse ends the
process at once in `log.Fatal`: the handler does not return, and its effects
are those of the entries before the failing one, once each, and of the failing
step, whatever entries follow in the batch. The loop body ends the process in
no other way, so a failure to send a reply is not terminal; an entry that is
an event does not panic; and when every entry lets the loop go on the handler
returns 200. -/
theorem Handler_fatal_is_terminal (w : World) (request : APIGatewayProxyRequest) :
    (∀ err, UnmarshalLineRequest w request.Body = Except.error err →
      Handler w request = Outcome.exited [Effect.logged err]) ∧
    (∀ req err, UnmarshalLineRequest w request.Body = Except.ok req →
      linebotNew (w.getenv "CHANNELSECRET") (w.getenv "LINEACCESSTOKEN") = some err →
      Handler w request = Outcome.exited [Effect.logged err]) ∧
    (∀ req pre oe post, UnmarshalLineRequest w request.Body = Except.ok req →
      linebotNew (w.getenv "CHANNELSECRET") (w.getenv "LINEACCESSTOKEN") = none →
      req.Events = pre ++ oe :: post →
      (∀ p ∈ List.enumFrom 0 pre, (handleEvent w p.1 p.2).control = Control.continues) →
      (handleEvent w pre.length oe).control = Control.exits →
      Handler w request =
        Outcome.exited
          ((List.enumFrom 0 pre).flatMap (fun p => (handleEvent w p.1 p.2).trace) ++
            (handleEvent w pre.length oe).trace)) ∧
    (∀ i oe, (handleEvent w i oe).control = Control.exits ↔
      ∃ e text, oe = some e ∧ e.Type_ = EventTypeMessage ∧ e.Message = Message.text text ∧
        ((∃ err, w.postForm i Endpoint (translationParams w text) = Except.error err) ∨
          (∃ resp, w.postForm i Endpoint (translationParams w text) = Except.ok resp ∧
            ((ValidateResponse w.decodeMap resp).1 ≠ none ∨
              (ParseResponse w (ValidateResponse w.decodeMap resp).2).2 ≠ none)))) ∧
    (∀ i e, (handleEvent w i (some e)).control ≠ Control.panics) ∧
    (∀ req, UnmarshalLineRequest w request.Body = Except.ok req →
      linebotNew (w.getenv "CHANNELSECRET") (w.getenv "LINEACCESSTOKEN") = none →
      (∀ p ∈ List.enumFrom 0 req.Events,
        (handleEvent w p.1 p.2).control = Control.continues) →
      Handler w request =
        Outcome.returned
          ((List.enumFrom 0 req.Events).flatMap (fun p => (handleEvent w p.1 p.2).trace))
          ⟨request.Body, 200⟩) := by
  refine ⟨?_, ?_, ?_, ?_, fun i e => handleEvent_some_not_panics w i e,
    fun req hu hb h => Handler_all_continue w request req hu hb h⟩
  · intro err hu
    simp only [Handler, hu]
  · intro req err hu hb
    simp only [Handler, hu, hb]
  · intro req pre oe post hu hb hev hpre he
    have hoe : (handleEvent w pre.length oe).control ≠ Control.continues := by
      rw [he]; simp
    have hs := (Handler_stops w request req pre oe post hu hb hev hpre hoe).1
    simp only [Handler, hu, hb, hs, he]
  · intro i oe
    rw [handleEvent_exits_iff]
    simp only [getTranslation_exits_iff]

/-- Witness of the amended C9: the provider is down for the first event, a
text message; the process exits after the post, and the image that follows
gets no reply. -/
theorem Handler_fatal_is_terminal_witness :
    Handler (exampleWorld [some ⟨"message", "t0", Message.text "hello"⟩,
        some ⟨"message", "t1", Message.other "image"⟩] [0] []) ⟨"body"⟩ =
      Outcome.exited [Effect.posted Endpoint
        ⟨[("auth_key", ["key"]), ("text", ["hello"]), ("source_lang", ["EN"]),
          ("target_lang", ["JA"])]⟩, Effect.logged "dial tcp: i/o timeout"] :=
  (Handler_fatal_is_terminal (exampleWorld [some ⟨"message", "t0", Message.text "hello"⟩,
      some ⟨"message", "t1", Message.other "image"⟩] [0] []) ⟨"body"⟩).2.2.1
    ⟨[some ⟨"message", "t0", Message.text "hello"⟩,
      some ⟨"message", "t1", Message.other "image"⟩], "U0"⟩ []
    (some ⟨"message", "t0", Message.text "hello"⟩)
    [some ⟨"message", "t1", Message.other "image"⟩] rfl (by decide) rfl (by decide)
    (by decide)

/-- A nil entry in the slice: the handler panics when the loop reaches it,
here before the sticker that follows is looked at. -/
theorem Handler_nil_entry_panics :
    Handler (exampleWorld [none, some ⟨"message", "t1", Message.other "sticker"⟩] [] [])
      ⟨"body"⟩ = Outcome.panicked [] := by
  decide

end Linebot
